import Mathlib

/-
Shallow embedding of the Voxel-Launcher provisioning engine
(src/minecraft.js) with proofs about its download, rule-evaluation,
runtime-selection, asset-synchronization, classpath and argument-building
logic.

Modelling conventions:
* The on-disk cache is a finite association list from path to file
  content (`FS`); `fs.existsSync` is lookup success and `stats.size` is
  the content length.  `os.homedir()` is elided from the fixed cache
  root, which only shifts every path by a common, claim-irrelevant
  string.
* The network is an oracle `String → NetResult` giving each URL either a
  response body or a failure; every consultation of the oracle is one
  network request, and the request counts are threaded through each
  operation.
* `os.platform()` and `process.arch` are passed in as plain strings,
  exactly as the JavaScript reads them.
* JavaScript numbers that the code only uses as integers are `Nat`;
  the percentage arithmetic of the progress callbacks is ℚ.  The asset
  threshold test `failed > total * 0.1` is modelled as
  `10 * failed > total`, which agrees with the double-precision
  evaluation of the source expression for every realistic object count
  (for `total` divisible by 10 the product `total * 0.1` rounds to the
  exact integer, and otherwise it lies strictly between the neighbouring
  integers).
-/

set_option maxRecDepth 4000

namespace Voxel

/-! ## The file-system and network model -/

/-- A network response for one URL: either the full body or a failure
(non-200 status, stream error or write error all reject the transfer). -/
inductive NetResult where
  | ok (content : String)
  | err
  deriving DecidableEq

/-- The on-disk cache: an association list from absolute path to file
content.  `fs.existsSync` = successful lookup, `stats.size` = length. -/
abbrev FS := List (String × String)

/-- `fs.existsSync`/`fs.readFileSync` combined: the content stored at a
path, if any. -/
def fsLookup (s : FS) (p : String) : Option String :=
  (s.find? (fun e => e.1 == p)).map Prod.snd

/-- `fs.unlinkSync`: remove the entry at a path. -/
def fsErase (s : FS) (p : String) : FS :=
  s.filter (fun e => e.1 != p)

/-- A completed `fs.createWriteStream` + pipe: the path now holds exactly
the downloaded body. -/
def fsWrite (s : FS) (p c : String) : FS :=
  (p, c) :: fsErase s p

/-- Fixed cache root (`~/.minecraft-launcher`, home directory elided). -/
def MINECRAFT_DIR : String := ".minecraft-launcher"

def VERSIONS_DIR : String := MINECRAFT_DIR ++ "/versions"

def LIBRARIES_DIR : String := MINECRAFT_DIR ++ "/libraries"

def ASSETS_DIR : String := MINECRAFT_DIR ++ "/assets"

/-- Outcome of one `downloadFile` call: the cache afterwards, whether the
promise resolved, and how many network requests were issued. -/
structure DlResult where
  fs : FS
  ok : Bool
  reqs : Nat
  deriving DecidableEq

/-- `downloadFile` (src/minecraft.js:62-126).  If the destination already
exists with size > 0 it resolves at once without touching the network;
otherwise it issues one GET: on success the body is fully written, on any
failure (non-200, stream error, write error) the partially written
destination is unlinked before rejecting.  The artifact's declared size is
not an input: the function never validates an existing file against it. -/
def downloadFile (net : String → NetResult) (s : FS) (url filePath : String) : DlResult :=
  match fsLookup s filePath with
  | some c =>
    if 0 < c.length then ⟨s, true, 0⟩
    else
      match net url with
      | NetResult.ok body => ⟨fsWrite s filePath body, true, 1⟩
      | NetResult.err => ⟨fsErase s filePath, false, 1⟩
  | none =>
    match net url with
    | NetResult.ok body => ⟨fsWrite s filePath body, true, 1⟩
    | NetResult.err => ⟨fsErase s filePath, false, 1⟩

/-! ## Library rule evaluation -/

/-- The `os` object of a platform rule; its `name` field is optional. -/
structure OsMatcher where
  name : Option String
  deriving DecidableEq

/-- A platform rule `{action, os?}` (actions are the strings of the JSON). -/
structure Rule where
  action : String
  os : Option OsMatcher
  deriving DecidableEq

/-- A library artifact `{url, path, size}`. -/
structure Artifact where
  url : String
  path : String
  size : Nat
  deriving DecidableEq

/-- The `natives` map of a library entry. -/
structure NativesSpec where
  windows : Option String
  osx : Option String
  linux : Option String
  deriving DecidableEq

/-- The `downloads` object of a library entry. -/
structure Downloads where
  artifact : Option Artifact
  classifiers : Option (List (String × Artifact))
  deriving DecidableEq

/-- A library entry of the version descriptor. -/
structure Library where
  name : String
  downloads : Option Downloads
  natives : Option NativesSpec
  rules : Option (List Rule)
  deriving DecidableEq

/-- The three hard-coded os-name/platform pairs of the source
(src/minecraft.js:151-153 and 160-162). -/
def osNameMatches (name : Option String) (platform : String) : Bool :=
  (name == some "windows" && platform == "win32") ||
  (name == some "osx" && platform == "darwin") ||
  (name == some "linux" && platform == "linux")

/-- One iteration of the rule loop of `shouldUseLibrary`
(src/minecraft.js:145-165): the running flag is overwritten by an
applicable allow/disallow rule and untouched otherwise. -/
def applyRule (platform : String) (flag : Bool) (rule : Rule) : Bool :=
  if rule.action == "allow" then
    match rule.os with
    | none => true
    | some m => if osNameMatches m.name platform then true else flag
  else if rule.action == "disallow" then
    match rule.os with
    | none => false
    | some m => if osNameMatches m.name platform then false else flag
  else flag

/-- `shouldUseLibrary` (src/minecraft.js:141-167): no rules field means
included; otherwise the rules fold over a flag that starts false. -/
def shouldUseLibrary (platform : String) (library : Library) : Bool :=
  match library.rules with
  | none => true
  | some rules => rules.foldl (applyRule platform) false

/-- A rule is applicable when its OS constraint is absent or names the
current platform (spec §4.2 wording). -/
def ruleApplicable (platform : String) (rule : Rule) : Bool :=
  match rule.os with
  | none => true
  | some m => osNameMatches m.name platform

/-- Modelled from the spec: the simulated last-applicable-rule-wins
verdict — each applicable rule overwrites the running flag with its
action's boolean, the final flag is the verdict. -/
def specRuleVerdict (platform : String) (rules : List Rule) : Bool :=
  rules.foldl (fun flag r => if ruleApplicable platform r then r.action == "allow" else flag) false

/-- Modelled from the spec: absence of any rules implies inclusion,
otherwise the simulated verdict decides. -/
def specLibraryVerdict (platform : String) (library : Library) : Bool :=
  match library.rules with
  | none => true
  | some rules => specRuleVerdict platform rules

/-! ## Runtime selection -/

/-- A discovered Java installation (src/minecraft.js:510 and 766-771). -/
structure JavaInstallation where
  path : String
  version : Nat
  vendor : String
  deriving DecidableEq

/-- The reducer of the compatible-candidate fold
(src/minecraft.js:850-852): keep whichever of the two has the smaller
major version (the earlier one on ties). -/
def pickCloser (closest current : JavaInstallation) : JavaInstallation :=
  if current.version < closest.version then current else closest

/-- `selectBestJavaForVersion` (src/minecraft.js:835-857): exact match
first, else the smallest version that is still ≥ required, else none. -/
def selectBestJavaForVersion (requiredVersion : Nat) (availableJava : List JavaInstallation) :
    Option JavaInstallation :=
  if availableJava.isEmpty then none
  else
    match availableJava.find? (fun j => j.version == requiredVersion) with
    | some exactMatch => some exactMatch
    | none =>
      match availableJava.filter (fun j => decide (requiredVersion ≤ j.version)) with
      | [] => none
      | c :: cs => some (cs.foldl pickCloser c)

/-! ## Character-level string helpers

Core's `String.splitOn`/`String.take` walk byte positions and do not
reduce inside the kernel, so the string operations the source uses are
given structurally over `List Char`, with JavaScript's semantics. -/

/-- Whether the second character list starts with the first. -/
def leadsWith : List Char → List Char → Bool
  | [], _ => true
  | _ :: _, [] => false
  | p :: ps, c :: cs => p == c && leadsWith ps cs

/-- Replace the first occurrence of `pat` (non-empty in every use below)
by `rep`, reporting failure when `pat` does not occur. -/
def replaceFirstAux (pat rep : List Char) : List Char → Option (List Char)
  | [] => none
  | c :: cs =>
    if leadsWith pat (c :: cs) then some (rep ++ (c :: cs).drop pat.length)
    else
      match replaceFirstAux pat rep cs with
      | some r => some (c :: r)
      | none => none

/-- First-occurrence string replacement: the semantics of JavaScript's
`String.prototype.replace` with a (non-empty) string pattern. -/
def replaceFirst (s pat rep : String) : String :=
  match replaceFirstAux pat.data rep.data s.data with
  | some r => ⟨r⟩
  | none => s

/-- Split on every occurrence of a separator character, keeping empty
pieces: the semantics of JavaScript's `split` with a one-character
separator. -/
def splitCharAux (sep : Char) : List Char → List Char → List (List Char)
  | [], acc => [acc.reverse]
  | c :: cs, acc =>
    if c == sep then acc.reverse :: splitCharAux sep cs []
    else splitCharAux sep cs (c :: acc)

/-- `s.split(sep)` for a one-character separator. -/
def splitChar (sep : Char) (s : String) : List String :=
  (splitCharAux sep s.data []).map (fun l => ⟨l⟩)

/-- Whether `pat` occurs anywhere in the list. -/
def containsSeq (pat : List Char) : List Char → Bool
  | [] => pat.isEmpty
  | c :: cs => leadsWith pat (c :: cs) || containsSeq pat cs

/-! ## Library paths and the library download loop -/

/-- Maven-style repository path derived from a `group:artifact:version
(:classifier)` coordinate (src/minecraft.js:133-138).  The group's dots
become slashes (a global single-character replace); a missing part
renders as JavaScript's "undefined". -/
def parseLibraryNamePath (name : String) : String :=
  let parts := splitChar ':' name
  let group : String := ⟨(parts.getD 0 "undefined").data.map (fun ch => if ch == '.' then '/' else ch)⟩
  let artifact := parts.getD 1 "undefined"
  let version := parts.getD 2 "undefined"
  let classifier :=
    match parts.get? 3 with
    | some c => if c == "" then "" else "-" ++ c
    | none => ""
  group ++ "/" ++ artifact ++ "/" ++ version ++ "/" ++ artifact ++ "-" ++ version ++ classifier ++ ".jar"

/-- `parseLibraryPath` (src/minecraft.js:128-139): the declared artifact
path when present and non-empty, else the coordinate-derived path. -/
def parseLibraryPath (library : Library) : String :=
  match library.downloads.bind Downloads.artifact with
  | some a => if a.path != "" then a.path else parseLibraryNamePath library.name
  | none => parseLibraryNamePath library.name

/-- The fixed, ordered fallback mirror list (src/minecraft.js:179-185). -/
def MAVEN_REPOS : List String :=
  ["https://libraries.minecraft.net",
   "https://maven.minecraftforge.net",
   "https://repo1.maven.org/maven2",
   "https://maven.codehaus.org/maven2",
   "https://oss.sonatype.org/content/repositories/public"]

/-- The fallback loop over the mirror list (src/minecraft.js:226-243):
each mirror is tried with `downloadFile` until one resolves. -/
def tryRepos (net : String → NetResult) (libPath libFilePath : String) (s : FS) :
    List String → DlResult
  | [] => ⟨s, false, 0⟩
  | repo :: rest =>
    let d := downloadFile net s (repo ++ "/" ++ libPath) libFilePath
    if d.ok then d
    else
      let r := tryRepos net libPath libFilePath d.fs rest
      ⟨r.fs, r.ok, d.reqs + r.reqs⟩

/-- The main-artifact part of one iteration of the library loop
(src/minecraft.js:187-252): direct URL first when the entry declares an
artifact, then the mirrors; a coordinate-only entry goes straight to the
mirrors.  Returns the cache and the number of requests issued. -/
def downloadLibraryMain (net : String → NetResult) (s : FS) (library : Library) : FS × Nat :=
  match library.downloads.bind Downloads.artifact with
  | some a =>
    let libPath := parseLibraryPath library
    let libFilePath := LIBRARIES_DIR ++ "/" ++ libPath
    let direct := if a.url != "" then downloadFile net s a.url libFilePath else ⟨s, false, 0⟩
    if direct.ok then (direct.fs, direct.reqs)
    else if libPath != "" then
      let fb := tryRepos net libPath libFilePath direct.fs MAVEN_REPOS
      (fb.fs, direct.reqs + fb.reqs)
    else (direct.fs, direct.reqs)
  | none =>
    if library.name != "" then
      let libPath := parseLibraryPath library
      let libFilePath := LIBRARIES_DIR ++ "/" ++ libPath
      if libPath != "" then
        let fb := tryRepos net libPath libFilePath s MAVEN_REPOS
        (fb.fs, fb.reqs)
      else (s, 0)
    else (s, 0)

/-- `${arch}` substitution value (src/minecraft.js:261 and twins). -/
def archBits (arch : String) : String := if arch == "x64" then "64" else "32"

/-- The native-classifier key for the current platform
(src/minecraft.js:256-267): platform-specific `natives` entry with
`${arch}` substituted; an absent or empty entry yields no key. -/
def nativeKeyFor (platform arch : String) (library : Library) : Option String :=
  match library.natives with
  | none => none
  | some n =>
    if platform == "win32" then
      n.windows.bind (fun k => if k == "" then none else some (replaceFirst k "$\x7barch\x7d" (archBits arch)))
    else if platform == "darwin" then
      n.osx.bind (fun k => if k == "" then none else some (replaceFirst k "$\x7barch\x7d" (archBits arch)))
    else if platform == "linux" then
      n.linux.bind (fun k => if k == "" then none else some (replaceFirst k "$\x7barch\x7d" (archBits arch)))
    else none

/-- The native artifact resolved for the current platform, when the entry
has a `downloads.classifiers` map and a matching key
(src/minecraft.js:255-273). -/
def nativeArtifactFor (platform arch : String) (library : Library) : Option Artifact :=
  match library.downloads with
  | none => none
  | some dl =>
    match dl.classifiers with
    | none => none
    | some cls =>
      match nativeKeyFor platform arch library with
      | none => none
      | some key => (cls.find? (fun e => e.1 == key)).map Prod.snd

/-- One full iteration of the library loop: main artifact then, when
resolved, the native classifier (src/minecraft.js:187-283). -/
def downloadLibraryEntry (net : String → NetResult) (platform arch : String) (s : FS)
    (library : Library) : FS × Nat :=
  let m := downloadLibraryMain net s library
  match nativeArtifactFor platform arch library with
  | none => m
  | some a =>
    let d := downloadFile net m.1 a.url (LIBRARIES_DIR ++ "/" ++ a.path)
    (d.fs, m.2 + d.reqs)

/-- The loop body of `downloadLibraries` over the already rule-filtered
entries (src/minecraft.js:187-289). -/
def downloadLibrariesGo (net : String → NetResult) (platform arch : String) (s : FS) :
    List Library → FS × Nat
  | [] => (s, 0)
  | l :: rest =>
    let r := downloadLibraryEntry net platform arch s l
    let r2 := downloadLibrariesGo net platform arch r.1 rest
    (r2.1, r.2 + r2.2)

/-- `downloadLibraries` (src/minecraft.js:169-292): rule-filter the
descriptor's entries, then fetch each in order.  Returns the cache and
the total number of network requests. -/
def downloadLibraries (net : String → NetResult) (platform arch : String) (s : FS)
    (libraries : List Library) : FS × Nat :=
  downloadLibrariesGo net platform arch s (libraries.filter (shouldUseLibrary platform))

/-! ## Asset synchronization -/

/-- One entry of the asset index's object map. -/
structure AssetObj where
  logicalPath : String
  hash : String
  size : Nat
  deriving DecidableEq

/-- The two-hex-character shard directory (`hash.substring(0, 2)`). -/
def hashShard (hash : String) : String := ⟨hash.data.take 2⟩

/-- `assets/objects/<2charShard>/<hash>` (src/minecraft.js:324). -/
def assetObjectPath (hash : String) : String :=
  ASSETS_DIR ++ "/objects/" ++ hashShard hash ++ "/" ++ hash

/-- The fixed asset endpoint (src/minecraft.js:325). -/
def assetObjectUrl (hash : String) : String :=
  "https://resources.download.minecraft.net/" ++ hashShard hash ++ "/" ++ hash

/-- `assets/indexes/<indexId>.json` (src/minecraft.js:299). -/
def assetIndexPath (indexId : String) : String :=
  ASSETS_DIR ++ "/indexes/" ++ indexId ++ ".json"

/-- The retry loop of one asset object (src/minecraft.js:337-361), with
the given number of attempts left: each attempt runs `downloadFile`, then
verifies the on-disk size against the declared size, deleting the file on
a mismatch and retrying. -/
def assetAttempts (net : String → NetResult) (o : AssetObj) : Nat → FS → DlResult
  | 0, s => ⟨s, false, 0⟩
  | n + 1, s =>
    let d := downloadFile net s (assetObjectUrl o.hash) (assetObjectPath o.hash)
    if d.ok then
      match fsLookup d.fs (assetObjectPath o.hash) with
      | some c =>
        if c.length == o.size then ⟨d.fs, true, d.reqs⟩
        else
          let r := assetAttempts net o n (fsErase d.fs (assetObjectPath o.hash))
          ⟨r.fs, r.ok, d.reqs + r.reqs⟩
      | none =>
        let r := assetAttempts net o n d.fs
        ⟨r.fs, r.ok, d.reqs + r.reqs⟩
    else
      let r := assetAttempts net o n d.fs
      ⟨r.fs, r.ok, d.reqs + r.reqs⟩

/-- `maxRetries` (src/minecraft.js:317). -/
def maxRetries : Nat := 3

/-- Processing of one asset object (src/minecraft.js:321-367): skip when
already present with matching size, else retry up to `maxRetries`. -/
def processAsset (net : String → NetResult) (s : FS) (o : AssetObj) : DlResult :=
  match fsLookup s (assetObjectPath o.hash) with
  | some c =>
    if c.length == o.size then ⟨s, true, 0⟩
    else assetAttempts net o maxRetries s
  | none => assetAttempts net o maxRetries s

/-- Aggregate state of the asset object loop. -/
structure AssetsStats where
  fs : FS
  completed : Nat
  failed : Nat
  reqs : Nat
  deriving DecidableEq

/-- The object loop (src/minecraft.js:319-380): each object either
completes or, after all retries fail, increments the failure count.  The
batching is display-only; the counters are order-independent, so the loop
is modelled sequentially. -/
def processAssets (net : String → NetResult) (s : FS) : List AssetObj → AssetsStats
  | [] => ⟨s, 0, 0, 0⟩
  | o :: rest =>
    let r := processAsset net s o
    let st := processAssets net r.fs rest
    ⟨st.fs, (if r.ok then 1 else 0) + st.completed, (if r.ok then 0 else 1) + st.failed,
      r.reqs + st.reqs⟩

/-- Outcome of one `downloadAssets` run. -/
structure AssetSyncResult where
  fs : FS
  total : Nat
  completed : Nat
  failed : Nat
  reqs : Nat
  fatal : Bool
  warned : Bool
  deriving DecidableEq

/-- The post-loop bookkeeping of `downloadAssets`
(src/minecraft.js:305-392): parse the index, run the object loop, then
fail fatally when `failed > total * 0.1` (in integers: `10 * failed >
total`) and otherwise succeed, warning when any object failed. -/
def assetPhase (net : String → NetResult) (s : FS) (objs : List AssetObj) (reqs0 : Nat) :
    AssetSyncResult :=
  let st := processAssets net s objs
  let total := objs.length
  let fatal := decide (10 * st.failed > total)
  ⟨st.fs, total, st.completed, st.failed, reqs0 + st.reqs, fatal,
    !fatal && decide (0 < st.failed)⟩

/-- `downloadAssets` (src/minecraft.js:294-397): fetch the index unless
it is already present and non-empty (a failed index download rejects the
whole synchronization), parse its object map with the given parser, run
the object loop and apply the 10% threshold. -/
def downloadAssets (net : String → NetResult) (parse : String → List AssetObj) (s : FS)
    (indexId indexUrl : String) : AssetSyncResult :=
  let ip := assetIndexPath indexId
  let needIndex :=
    match fsLookup s ip with
    | some c => c.length == 0
    | none => true
  if needIndex then
    let d := downloadFile net s indexUrl ip
    if d.ok then assetPhase net d.fs (parse ((fsLookup d.fs ip).getD "")) d.reqs
    else ⟨d.fs, 0, 0, 0, d.reqs, true, false⟩
  else assetPhase net s (parse ((fsLookup s ip).getD "")) 0

/-! ## Classpath construction -/

/-- `versions/<id>/<id>.jar` (src/minecraft.js:863). -/
def versionJarPath (version : String) : String :=
  VERSIONS_DIR ++ "/" ++ version ++ "/" ++ version ++ ".jar"

/-- A native-only entry: classifiers present but no main artifact
(src/minecraft.js:884). -/
def nativeOnly (library : Library) : Bool :=
  match library.downloads with
  | none => false
  | some dl => dl.classifiers.isSome && dl.artifact.isNone

/-- The library-file path the classpath loop computes
(src/minecraft.js:889-899): defined when the entry declares an artifact
or has a non-empty coordinate name. -/
def libFilePathOf (library : Library) : Option String :=
  if (library.downloads.bind Downloads.artifact).isSome || library.name != "" then
    some (LIBRARIES_DIR ++ "/" ++ parseLibraryPath library)
  else none

/-- The library part of the classpath loop (src/minecraft.js:876-911). -/
def classPathLibs (platform : String) (s : FS) : List Library → List String
  | [] => []
  | library :: rest =>
    if !shouldUseLibrary platform library then classPathLibs platform s rest
    else if nativeOnly library then classPathLibs platform s rest
    else
      match libFilePathOf library with
      | none => classPathLibs platform s rest
      | some fp =>
        if (fsLookup s fp).isSome then fp :: classPathLibs platform s rest
        else classPathLibs platform s rest

/-- `buildClassPath` (src/minecraft.js:859-923) as the ordered entry
list before joining with the path delimiter: version jar first when it
exists on disk, then the surviving libraries in descriptor order. -/
def buildClassPath (platform : String) (s : FS) (version : String) (libraries : List Library) :
    List String :=
  (if (fsLookup s (versionJarPath version)).isSome then [versionJarPath version] else []) ++
    classPathLibs platform s libraries

/-- Classpath eligibility of one entry, as the spec words it: rule
evaluation allows it, it is not native-only, its file path is defined and
the file exists on disk. -/
def classpathEligible (platform : String) (s : FS) (library : Library) : Bool :=
  shouldUseLibrary platform library && !nativeOnly library &&
    ((libFilePathOf library).map (fun fp => (fsLookup s fp).isSome)).getD false

/-! ## Progress arithmetic -/

/-- The client-jar phase mapping `5 + progress * 0.3`
(src/minecraft.js:969). -/
def clientJarProgress (p : ℚ) : ℚ := 5 + p * (3 / 10)

/-- The library phase mapping `35 + progress * 0.5`
(src/minecraft.js:977). -/
def libraryOutwardProgress (p : ℚ) : ℚ := 35 + p * (1 / 2)

/-- The per-batch asset callback `90 + (completed / total) * 10`
(src/minecraft.js:373-374). -/
def assetBatchProgress (completed total : ℕ) : ℚ :=
  90 + ((completed : ℚ) / (total : ℚ)) * 10

/-- The inner library-loop percentage `(completed / total) * 100 +
progress / total` (src/minecraft.js:213). -/
def libraryInnerProgress (completed total : ℕ) (p : ℚ) : ℚ :=
  ((completed : ℚ) / (total : ℚ)) * 100 + p / (total : ℚ)

/-! ## Legacy game-argument construction -/

/-- The legacy-template substitution and split of `launchMinecraft`
(src/minecraft.js:1082-1095): each placeholder is passed to JavaScript's
first-occurrence `String.replace`, in source order, and the result is
split on single spaces. -/
def buildLegacyGameArgs (template username version assetIndexId accessToken userType uuid : String) :
    List String :=
  splitChar ' ' (replaceFirst (replaceFirst (replaceFirst (replaceFirst (replaceFirst (replaceFirst
    (replaceFirst (replaceFirst (replaceFirst template
      "$\x7bauth_player_name\x7d" username)
      "$\x7bversion_name\x7d" version)
      "$\x7bgame_directory\x7d" MINECRAFT_DIR)
      "$\x7bassets_root\x7d" ASSETS_DIR)
      "$\x7bassets_index_name\x7d" assetIndexId)
      "$\x7bauth_access_token\x7d" accessToken)
      "$\x7buser_type\x7d" userType)
      "$\x7bauth_uuid\x7d" uuid)
      "$\x7buser_properties\x7d" "\x7b\x7d")

/-- A residual placeholder opener in one argument. -/
def hasResidualToken (s : String) : Bool :=
  containsSeq "$\x7b".data s.data

/-! ## Concrete data for scenarios, witnesses and counterexamples -/

/-- A rule disallowing the `osx` platform. -/
def disallowOsxRule : Rule := ⟨"disallow", some ⟨some "osx"⟩⟩

/-- An unconstrained allow rule. -/
def allowAllRule : Rule := ⟨"allow", none⟩

/-- A library whose rule list consists solely of the disallow-osx rule. -/
def disallowOsxOnlyLib : Library := ⟨"test:lib:1.0", none, none, some [disallowOsxRule]⟩

/-- A library with the real-descriptor rule shape: allow everywhere, then
disallow on osx. -/
def allowThenDisallowOsxLib : Library :=
  ⟨"test:lib:1.0", none, none, some [allowAllRule, disallowOsxRule]⟩

/-- A library whose artifact declares byte size 0. -/
def zeroSizeLib : Library :=
  ⟨"g:a:1", some ⟨some ⟨"https://example.invalid/a.jar", "g/a/1/a-1.jar", 0⟩, none⟩, none, none⟩

/-- A cache holding `zeroSizeLib`'s artifact as an empty file: its on-disk
byte size equals its declared size. -/
def zeroSizeCache : FS := [(LIBRARIES_DIR ++ "/g/a/1/a-1.jar", "")]

/-- A network oracle that answers every request. -/
def netAlwaysOk : String → NetResult := fun _ => NetResult.ok "body"

/-- A network oracle that fails every request. -/
def netAlwaysErr : String → NetResult := fun _ => NetResult.err

/-- The canonical legacy (1.8-era) argument template, each placeholder
occurring exactly once. -/
def legacyTemplate18 : String :=
  "--username $\x7bauth_player_name\x7d --version $\x7bversion_name\x7d " ++
  "--gameDir $\x7bgame_directory\x7d --assetsDir $\x7bassets_root\x7d " ++
  "--assetIndex $\x7bassets_index_name\x7d --uuid $\x7bauth_uuid\x7d " ++
  "--accessToken $\x7bauth_access_token\x7d --userProperties $\x7buser_properties\x7d " ++
  "--userType $\x7buser_type\x7d"

/-- A degenerate legacy template in which one placeholder occurs twice. -/
def legacyTemplateDup : String :=
  "--uuid $\x7bauth_uuid\x7d --again $\x7bauth_uuid\x7d"

/-- An existing cache entry with non-empty content: what the library-side
`downloadFile` guard checks before skipping a fetch. -/
def entryNonempty (s : FS) (fp : String) : Bool :=
  match fsLookup s fp with
  | some c => decide (0 < c.length)
  | none => false

/-- A fully cached library entry: its main artifact file (when its path
is defined) and its platform-native classifier file (when one resolves)
are both on disk and non-empty. -/
def libraryCached (platform arch : String) (s : FS) (library : Library) : Bool :=
  (match libFilePathOf library with
   | some fp => entryNonempty s fp
   | none => true) &&
  (match nativeArtifactFor platform arch library with
   | some a => entryNonempty s (LIBRARIES_DIR ++ "/" ++ a.path)
   | none => true)

/-- A fully cached asset object: its shard file is on disk with exactly
the declared byte size. -/
def assetCached (s : FS) (o : AssetObj) : Bool :=
  match fsLookup s (assetObjectPath o.hash) with
  | some c => c.length == o.size
  | none => false

/-- Twenty asset objects with pairwise distinct hashes, declared size 1
each. -/
def c4Objs : List AssetObj :=
  [⟨"p01", "aa01", 1⟩, ⟨"p02", "aa02", 1⟩, ⟨"p03", "aa03", 1⟩, ⟨"p04", "aa04", 1⟩,
   ⟨"p05", "aa05", 1⟩, ⟨"p06", "aa06", 1⟩, ⟨"p07", "aa07", 1⟩, ⟨"p08", "aa08", 1⟩,
   ⟨"p09", "aa09", 1⟩, ⟨"p10", "aa10", 1⟩, ⟨"p11", "aa11", 1⟩, ⟨"p12", "aa12", 1⟩,
   ⟨"p13", "aa13", 1⟩, ⟨"p14", "aa14", 1⟩, ⟨"p15", "aa15", 1⟩, ⟨"p16", "aa16", 1⟩,
   ⟨"p17", "aa17", 1⟩, ⟨"p18", "aa18", 1⟩, ⟨"p19", "aa19", 1⟩, ⟨"p20", "aa20", 1⟩]

/-- A cache holding the asset index and all of `c4Objs` except the first,
each with matching size: exactly one of twenty objects (5%) will fail
against a dead network. -/
def c4Cache : FS :=
  (assetIndexPath "idx", "X") :: (c4Objs.drop 1).map (fun o => (assetObjectPath o.hash, "z"))

/-- A library entry whose declared artifact has size 3. -/
def cachedLib : Library :=
  ⟨"g:a:1", some ⟨some ⟨"https://u/a.jar", "g/a/1/a-1.jar", 3⟩, none⟩, none, none⟩

/-- One asset object of declared size 2. -/
def c5Objs : List AssetObj := [⟨"o.png", "ab12", 2⟩]

/-- A fully populated cache for `cachedLib` and `c5Objs`: library
artifact with its declared (non-zero) size, asset index, asset object
with its declared size. -/
def c5Cache : FS :=
  [(LIBRARIES_DIR ++ "/g/a/1/a-1.jar", "abc"),
   (assetIndexPath "idx", "X"),
   (assetObjectPath "ab12", "zz")]

/-! ## File-system lemmas -/

theorem fsLookup_cons (a : String × String) (s : FS) (q : String) :
    fsLookup (a :: s) q = if a.1 == q then some a.2 else fsLookup s q := by
  by_cases h : a.1 == q <;> simp [fsLookup, List.find?_cons, h]

theorem fsLookup_erase_ne (s : FS) (p q : String) (h : p ≠ q) :
    fsLookup (fsErase s p) q = fsLookup s q := by
  induction s with
  | nil => rfl
  | cons a t ih =>
    by_cases ha : a.1 = p
    · have h1 : fsErase (a :: t) p = fsErase t p := by
        simp [fsErase, List.filter_cons, ha]
      have h2 : (a.1 == q) = false := by
        rw [ha]; exact beq_eq_false_iff_ne.mpr h
      rw [h1, ih, fsLookup_cons, h2]
      simp
    · have h1 : fsErase (a :: t) p = a :: fsErase t p := by
        simp [fsErase, List.filter_cons, ha]
      rw [h1, fsLookup_cons, fsLookup_cons, ih]

theorem fsLookup_erase_self (s : FS) (p : String) : fsLookup (fsErase s p) p = none := by
  simp only [fsLookup, fsErase, Option.map_eq_none']
  rw [List.find?_eq_none]
  intro x hx
  simp only [List.mem_filter] at hx
  simpa using hx.2

theorem fsLookup_write_self (s : FS) (p c : String) : fsLookup (fsWrite s p c) p = some c := by
  rw [fsWrite, fsLookup_cons]
  simp

theorem fsLookup_write_ne (s : FS) (p c : String) (q : String) (h : p ≠ q) :
    fsLookup (fsWrite s p c) q = fsLookup s q := by
  rw [fsWrite, fsLookup_cons]
  have h2 : (p == q) = false := beq_eq_false_iff_ne.mpr h
  rw [h2]
  simp [fsLookup_erase_ne s p q h]

/-! ## Runtime-selection lemmas -/

theorem pickCloser_version_le_left (c h : JavaInstallation) :
    (pickCloser c h).version ≤ c.version := by
  unfold pickCloser
  by_cases hlt : h.version < c.version
  · simp [hlt]; omega
  · simp [hlt]

theorem pickCloser_version_le_right (c h : JavaInstallation) :
    (pickCloser c h).version ≤ h.version := by
  unfold pickCloser
  by_cases hlt : h.version < c.version
  · simp [hlt]
  · simp [hlt]; omega

theorem foldl_pickCloser_mem (cs : List JavaInstallation) :
    ∀ c, cs.foldl pickCloser c ∈ c :: cs := by
  induction cs with
  | nil => intro c; simp
  | cons h t ih =>
    intro c
    have hm := ih (pickCloser c h)
    have hpick : pickCloser c h = c ∨ pickCloser c h = h := by
      unfold pickCloser
      by_cases hlt : h.version < c.version <;> simp [hlt]
    simp only [List.foldl_cons]
    rcases List.mem_cons.mp hm with he | ht
    · rcases hpick with hp | hp <;> rw [he, hp] <;> simp
    · simp [ht]

theorem foldl_pickCloser_le (cs : List JavaInstallation) :
    ∀ c, ∀ j ∈ c :: cs, (cs.foldl pickCloser c).version ≤ j.version := by
  induction cs with
  | nil => intro c j hj; simp at hj; simp [hj]
  | cons h t ih =>
    intro c j hj
    simp only [List.foldl_cons]
    rcases List.mem_cons.mp hj with he | hj2
    · rw [he]
      exact le_trans (ih (pickCloser c h) _ (by simp)) (pickCloser_version_le_left c h)
    · rcases List.mem_cons.mp hj2 with he | ht
      · rw [he]
        exact le_trans (ih (pickCloser c h) _ (by simp)) (pickCloser_version_le_right c h)
      · exact ih (pickCloser c h) j (by simp [ht])

/-- C1.  For every required Java major version and every list of
discovered installations, `selectBestJavaForVersion` returns none on the
empty list and when no installation reaches the required major; returns
some installation whenever one reaches it; returns one of major exactly
the required value when such an installation exists; and any returned
installation is a discovered one whose major is ≥ the required value and
minimal among all qualifying installations (never a larger one when a
smaller qualifying one exists). -/
theorem selectBestJava_correct (r : Nat) (avail : List JavaInstallation) :
    (avail = [] → selectBestJavaForVersion r avail = none) ∧
    ((∀ j ∈ avail, j.version < r) → selectBestJavaForVersion r avail = none) ∧
    ((∃ j ∈ avail, r ≤ j.version) → ∃ k, selectBestJavaForVersion r avail = some k) ∧
    ((∃ j ∈ avail, j.version = r) →
      ∃ k, selectBestJavaForVersion r avail = some k ∧ k.version = r) ∧
    (∀ k, selectBestJavaForVersion r avail = some k →
      k ∈ avail ∧ r ≤ k.version ∧ ∀ j ∈ avail, r ≤ j.version → k.version ≤ j.version) := by
  have hmain : ∀ k, selectBestJavaForVersion r avail = some k →
      k ∈ avail ∧ r ≤ k.version ∧ ∀ j ∈ avail, r ≤ j.version → k.version ≤ j.version := by
    intro k hk
    unfold selectBestJavaForVersion at hk
    by_cases he : avail.isEmpty
    · simp [he] at hk
    · rw [if_neg (by simpa using he)] at hk
      cases hf : avail.find? (fun j => j.version == r) with
      | some j =>
        rw [hf] at hk
        have hjk : j = k := by simpa using hk
        subst hjk
        have hmem : j ∈ avail := List.mem_of_find?_eq_some hf
        have hver : j.version = r := by
          have := List.find?_some hf
          simpa using this
        refine ⟨hmem, le_of_eq hver.symm, ?_⟩
        intro m _ hm
        omega
      | none =>
        rw [hf] at hk
        cases hfil : avail.filter (fun j => decide (r ≤ j.version)) with
        | nil => rw [hfil] at hk; simp at hk
        | cons c cs =>
          rw [hfil] at hk
          have hkval : cs.foldl pickCloser c = k := by simpa using hk
          have hmemf : k ∈ c :: cs := hkval ▸ foldl_pickCloser_mem cs c
          have hmemfil : k ∈ avail.filter (fun j => decide (r ≤ j.version)) := by
            rw [hfil]; exact hmemf
          have hk1 := List.mem_filter.mp hmemfil
          refine ⟨hk1.1, by simpa using hk1.2, ?_⟩
          intro j hj hrj
          have hjfil : j ∈ avail.filter (fun j => decide (r ≤ j.version)) :=
            List.mem_filter.mpr ⟨hj, by simpa using hrj⟩
          rw [hfil] at hjfil
          exact hkval ▸ foldl_pickCloser_le cs c j hjfil
  have hsome : (∃ j ∈ avail, r ≤ j.version) → ∃ k, selectBestJavaForVersion r avail = some k := by
    rintro ⟨j, hj, hrj⟩
    cases hres : selectBestJavaForVersion r avail with
    | some k => exact ⟨k, rfl⟩
    | none =>
      exfalso
      unfold selectBestJavaForVersion at hres
      have he : avail.isEmpty = false := by
        cases avail with
        | nil => simp at hj
        | cons a t => rfl
      rw [he] at hres
      simp only [Bool.false_eq_true, if_false] at hres
      cases hf : avail.find? (fun j => j.version == r) with
      | some m => rw [hf] at hres; simp at hres
      | none =>
        rw [hf] at hres
        cases hfil : avail.filter (fun j => decide (r ≤ j.version)) with
        | nil =>
          have : j ∈ avail.filter (fun j => decide (r ≤ j.version)) :=
            List.mem_filter.mpr ⟨hj, by simpa using hrj⟩
          rw [hfil] at this
          simp at this
        | cons c cs => rw [hfil] at hres; simp at hres
  refine ⟨?_, ?_, hsome, ?_, hmain⟩
  · intro h
    subst h
    rfl
  · intro hall
    cases hres : selectBestJavaForVersion r avail with
    | none => rfl
    | some k =>
      exfalso
      have ⟨hmem, hge, _⟩ := hmain k hres
      have := hall k hmem
      omega
  · rintro ⟨j, hj, hjr⟩
    obtain ⟨k, hk⟩ := hsome ⟨j, hj, le_of_eq hjr.symm⟩
    have ⟨_, hge, hmin⟩ := hmain k hk
    have hle : k.version ≤ j.version := hmin j hj (le_of_eq hjr.symm)
    exact ⟨k, hk, by omega⟩

/-! ## Rule-evaluation theorems -/

theorem applyRule_eq_specStep (platform : String) (flag : Bool) (r : Rule)
    (h : r.action = "allow" ∨ r.action = "disallow") :
    applyRule platform flag r =
      (if ruleApplicable platform r then r.action == "allow" else flag) := by
  have hda : (("disallow" : String) == "allow") = false := rfl
  rcases h with h | h
  · cases hos : r.os with
    | none => simp [applyRule, ruleApplicable, h, hos]
    | some m =>
      by_cases hm : osNameMatches m.name platform <;>
        simp [applyRule, ruleApplicable, h, hos, hm]
  · cases hos : r.os with
    | none => simp [applyRule, ruleApplicable, h, hos, hda]
    | some m =>
      by_cases hm : osNameMatches m.name platform <;>
        simp [applyRule, ruleApplicable, h, hos, hm, hda]

theorem foldRules_eq_spec (platform : String) (rules : List Rule)
    (h : ∀ r ∈ rules, r.action = "allow" ∨ r.action = "disallow") :
    ∀ flag, rules.foldl (applyRule platform) flag =
      rules.foldl (fun f r => if ruleApplicable platform r then r.action == "allow" else f) flag := by
  induction rules with
  | nil => intro flag; rfl
  | cons r rest ih =>
    intro flag
    simp only [List.foldl_cons]
    rw [applyRule_eq_specStep platform flag r (h r (by simp))]
    exact ih (fun x hx => h x (by simp [hx])) _

/-- C2.  For every library entry whose rules use only the allow/disallow
actions and every current platform, the inclusion verdict of
`shouldUseLibrary` equals the spec's simulated last-applicable-rule-wins
result: no rules field means included, otherwise each rule whose OS
constraint is absent or matches the platform overwrites the running flag
with its action's boolean and the final flag decides. -/
theorem shouldUseLibrary_eq_specVerdict (platform : String) (library : Library)
    (h : ∀ r ∈ library.rules.getD [], r.action = "allow" ∨ r.action = "disallow") :
    shouldUseLibrary platform library = specLibraryVerdict platform library := by
  unfold shouldUseLibrary specLibraryVerdict specRuleVerdict
  cases hr : library.rules with
  | none => rfl
  | some rules =>
    refine foldRules_eq_spec platform rules ?_ false
    intro x hx
    exact h x (by rw [hr]; simpa using hx)

/-- Witness for C2 at a concrete library and platform. -/
theorem shouldUseLibrary_eq_specVerdict_witness :
    shouldUseLibrary "linux" allowThenDisallowOsxLib =
      specLibraryVerdict "linux" allowThenDisallowOsxLib :=
  shouldUseLibrary_eq_specVerdict "linux" allowThenDisallowOsxLib (by decide)

/-- C3 counterexample.  A library whose rule list consists solely of a
disallow-osx rule is NOT included on a simulated Linux platform: the
running flag starts false and the inapplicable rule never overwrites it,
so the claimed inclusion on Linux fails. -/
theorem disallowOsxOnly_excluded_on_linux :
    shouldUseLibrary "linux" disallowOsxOnlyLib = false := by decide

/-- C3 amended.  A rule list consisting solely of the disallow-osx rule
excludes the entry on both simulated Linux and simulated macOS; the
spec's scenario behaviour (included on Linux, excluded on macOS) holds
for the real-descriptor rule shape, an unconstrained allow rule followed
by the disallow-osx rule. -/
theorem osxRuleScenario :
    shouldUseLibrary "linux" allowThenDisallowOsxLib = true ∧
    shouldUseLibrary "darwin" allowThenDisallowOsxLib = false ∧
    shouldUseLibrary "linux" disallowOsxOnlyLib = false ∧
    shouldUseLibrary "darwin" disallowOsxOnlyLib = false := by
  refine ⟨by decide, by decide, by decide, by decide⟩

/-! ## Download short-circuit and atomicity theorems -/

/-- C9.  Whenever the destination file already exists with size strictly
greater than zero, `downloadFile` resolves successfully, issues zero
network requests and leaves the cache — hence the file's contents —
unchanged.  The declared artifact size is not even an argument of the
function, so no size validation can occur. -/
theorem downloadFile_skips_existing (net : String → NetResult) (s : FS) (url fp c : String)
    (hc : fsLookup s fp = some c) (hlen : 0 < c.length) :
    downloadFile net s url fp = ⟨s, true, 0⟩ := by
  unfold downloadFile
  rw [hc]
  simp [hlen]

/-- Witness for C9: a cached one-byte file whose declared size would not
even match is left alone, successfully, with zero requests. -/
theorem downloadFile_skips_existing_witness :
    downloadFile netAlwaysErr [("f", "x")] "u" "f" = ⟨[("f", "x")], true, 0⟩ :=
  downloadFile_skips_existing netAlwaysErr [("f", "x")] "u" "f" "x" (by rfl) (by decide)

/-- C10.  `downloadFile` is atomic at its destination: whenever it
rejects, the destination path is absent from the cache afterwards (any
partial file was unlinked), and whenever it resolves the cache either was
left untouched (pre-existing non-empty file) or holds exactly the fully
downloaded body at the destination. -/
theorem downloadFile_atomic (net : String → NetResult) (s : FS) (url fp : String) :
    ((downloadFile net s url fp).ok = false →
      fsLookup (downloadFile net s url fp).fs fp = none) ∧
    ((downloadFile net s url fp).ok = true →
      (downloadFile net s url fp).fs = s ∨
      ∃ body, net url = NetResult.ok body ∧
        (downloadFile net s url fp).fs = fsWrite s fp body) := by
  unfold downloadFile
  cases hc : fsLookup s fp with
  | some c =>
    by_cases hlen : 0 < c.length
    · simp [hlen]
    · cases hn : net url with
      | ok body => simp [hlen, hn]
      | err => simp [hlen, hn, fsLookup_erase_self]
  | none =>
    cases hn : net url with
    | ok body => simp [hn]
    | err => simp [hn, fsLookup_erase_self]

/-! ## Classpath theorem -/

/-- C6.  For every platform, cache state, version and descriptor library
list, the built classpath is the version jar first — exactly when its
file exists on disk — followed by the descriptor's libraries in declared
order restricted to rule-eligible, non-native-only entries whose artifact
file exists on disk, each contributing its library-file path. -/
theorem buildClassPath_spec (platform : String) (s : FS) (version : String)
    (libs : List Library) :
    buildClassPath platform s version libs =
      (if (fsLookup s (versionJarPath version)).isSome then [versionJarPath version] else []) ++
        (libs.filter (classpathEligible platform s)).filterMap libFilePathOf := by
  unfold buildClassPath
  congr 1
  induction libs with
  | nil => rfl
  | cons l rest ih =>
    simp only [classPathLibs, List.filter_cons]
    by_cases h1 : shouldUseLibrary platform l
    · by_cases h2 : nativeOnly l
      · simp [classpathEligible, h1, h2, ih]
      · cases h3 : libFilePathOf l with
        | none => simp [classpathEligible, h1, h2, h3, ih]
        | some fp =>
          by_cases h4 : (fsLookup s fp).isSome
          · simp [classpathEligible, h1, h2, h3, h4, ih, List.filterMap_cons]
          · simp [classpathEligible, h1, h2, h3, h4, ih]
    · simp [classpathEligible, h1, ih]

/-! ## Progress theorems -/

/-- C7 counterexample.  Every asset-phase callback value is at least 90 —
the asset slice is `90 + (completed/total)*10`, not one starting at 85 —
and the first batch callback of a 20-object index with nothing yet
completed reports exactly 90, so asset callbacks do not cover 85–100. -/
theorem assetProgress_floor_is_90 :
    (∀ c t : ℕ, 90 ≤ assetBatchProgress c t) ∧ assetBatchProgress 0 20 = 90 := by
  constructor
  · intro c t
    unfold assetBatchProgress
    have h : 0 ≤ ((c : ℚ) / (t : ℚ)) * 10 := by positivity
    linarith
  · unfold assetBatchProgress
    norm_num

/-- C7 amended.  The fixed phase boundaries hold as: manifest at 0 and 5,
client jar within 5–35, libraries within 35–85 (the inner library
percentage staying within 0–100), but the asset-phase callbacks lie
within 90–100 — the final 10% slice — rather than spanning 85–100; the
orchestrator emits 85 before and 100 after the asset phase. -/
theorem progressPhaseBounds :
    (∀ p : ℚ, 0 ≤ p → p ≤ 100 →
      5 ≤ clientJarProgress p ∧ clientJarProgress p ≤ 35) ∧
    (∀ p : ℚ, 0 ≤ p → p ≤ 100 →
      35 ≤ libraryOutwardProgress p ∧ libraryOutwardProgress p ≤ 85) ∧
    (∀ c t : ℕ, 90 ≤ assetBatchProgress c t ∧ (c ≤ t → assetBatchProgress c t ≤ 100)) ∧
    (∀ c t : ℕ, ∀ p : ℚ, c < t → 0 ≤ p → p ≤ 100 →
      0 ≤ libraryInnerProgress c t p ∧ libraryInnerProgress c t p ≤ 100) := by
  refine ⟨?_, ?_, ?_, ?_⟩
  · intro p h0 h1
    unfold clientJarProgress
    constructor <;> nlinarith
  · intro p h0 h1
    unfold libraryOutwardProgress
    constructor <;> nlinarith
  · intro c t
    unfold assetBatchProgress
    constructor
    · have h : 0 ≤ ((c : ℚ) / (t : ℚ)) * 10 := by positivity
      linarith
    · intro hct
      rcases Nat.eq_zero_or_pos t with ht | ht
      · subst ht
        interval_cases c
        norm_num
      · have ht' : (0 : ℚ) < (t : ℚ) := by exact_mod_cast ht
        have hdiv : ((c : ℚ) / (t : ℚ)) ≤ 1 := by
          rw [div_le_one ht']
          exact_mod_cast hct
        nlinarith
  · intro c t p hct hp0 hp1
    have ht' : (0 : ℚ) < (t : ℚ) := by
      exact_mod_cast Nat.lt_of_le_of_lt (Nat.zero_le c) hct
    have hc1 : (c : ℚ) + 1 ≤ (t : ℚ) := by exact_mod_cast Nat.succ_le_of_lt hct
    unfold libraryInnerProgress
    constructor
    · have h1 : 0 ≤ ((c : ℚ) / (t : ℚ)) * 100 := by positivity
      have h2 : 0 ≤ p / (t : ℚ) := div_nonneg hp0 (le_of_lt ht')
      linarith
    · rw [div_mul_eq_mul_div, div_add_div_same, div_le_iff₀ ht']
      nlinarith

/-! ## Legacy argument theorems -/

/-- C8 counterexample.  JavaScript's string `replace` substitutes only
the first occurrence of each placeholder, so a template repeating a
placeholder yields an argument vector that still contains a residual
placeholder token, contradicting the claimed every-occurrence
substitution. -/
theorem legacyArgs_residual_on_duplicate :
    buildLegacyGameArgs legacyTemplateDup "P" "v" "i" "t" "legacy" "UUID" =
      ["--uuid", "UUID", "--again", "$\x7bauth_uuid\x7d"] ∧
    (buildLegacyGameArgs legacyTemplateDup "P" "v" "i" "t" "legacy" "UUID").any
        hasResidualToken = true := by
  exact ⟨by decide, by decide⟩

/-- C8 amended.  Substitution replaces the first occurrence of each fixed
placeholder; for a legacy template in which each placeholder occurs at
most once — the shape of real legacy descriptors, exemplified by the
canonical 1.8 template — every occurrence is substituted, the result
splits on spaces into the expected flag vector, and no argument contains
a residual placeholder token. -/
theorem legacyArgs_scenario :
    buildLegacyGameArgs legacyTemplate18 "Player" "1.8.9" "1.8" "0" "legacy"
        "00000000-0000-0000-0000-000000000000" =
      ["--username", "Player", "--version", "1.8.9",
       "--gameDir", MINECRAFT_DIR, "--assetsDir", ASSETS_DIR,
       "--assetIndex", "1.8", "--uuid", "00000000-0000-0000-0000-000000000000",
       "--accessToken", "0", "--userProperties", "\x7b\x7d",
       "--userType", "legacy"] ∧
    (buildLegacyGameArgs legacyTemplate18 "Player" "1.8.9" "1.8" "0" "legacy"
        "00000000-0000-0000-0000-000000000000").all
      (fun a => !hasResidualToken a) = true := by
  exact ⟨by decide, by decide⟩

/-! ## Frame and congruence lemmas for the asset loop -/

theorem countP_congr_list {α : Type} (l : List α) (p q : α → Bool)
    (h : ∀ a ∈ l, p a = q a) : l.countP p = l.countP q := by
  induction l with
  | nil => rfl
  | cons a t ih =>
    rw [List.countP_cons, List.countP_cons, h a (by simp), ih (fun x hx => h x (by simp [hx]))]

theorem downloadFile_frame (net : String → NetResult) (s : FS) (url fp q : String)
    (h : fp ≠ q) :
    fsLookup (downloadFile net s url fp).fs q = fsLookup s q := by
  unfold downloadFile
  cases hc : fsLookup s fp with
  | some c =>
    by_cases hlen : 0 < c.length
    · simp [hlen]
    · cases hn : net url with
      | ok body => simp [hlen, hn, fsLookup_write_ne s fp body q h]
      | err => simp [hlen, hn, fsLookup_erase_ne s fp q h]
  | none =>
    cases hn : net url with
    | ok body => simp [hn, fsLookup_write_ne s fp body q h]
    | err => simp [hn, fsLookup_erase_ne s fp q h]

theorem downloadFile_congr (net : String → NetResult) (s s' : FS) (url fp : String)
    (h : fsLookup s fp = fsLookup s' fp) :
    (downloadFile net s url fp).ok = (downloadFile net s' url fp).ok ∧
    (downloadFile net s url fp).reqs = (downloadFile net s' url fp).reqs ∧
    fsLookup (downloadFile net s url fp).fs fp = fsLookup (downloadFile net s' url fp).fs fp := by
  unfold downloadFile
  rw [← h]
  cases hc : fsLookup s fp with
  | some c =>
    by_cases hlen : 0 < c.length
    · simp only [hlen, if_true]
      exact ⟨trivial, trivial, h⟩
    · cases hn : net url with
      | ok body => simp [hlen, hn, fsLookup_write_self]
      | err => simp [hlen, hn, fsLookup_erase_self]
  | none =>
    cases hn : net url with
    | ok body => simp [hn, fsLookup_write_self]
    | err => simp [hn, fsLookup_erase_self]

theorem assetAttempts_frame (net : String → NetResult) (o : AssetObj) :
    ∀ (n : Nat) (s : FS) (q : String), assetObjectPath o.hash ≠ q →
      fsLookup (assetAttempts net o n s).fs q = fsLookup s q := by
  intro n
  induction n with
  | zero => intro s q h; rfl
  | succ n ih =>
    intro s q h
    simp only [assetAttempts]
    have hdq : fsLookup (downloadFile net s (assetObjectUrl o.hash) (assetObjectPath o.hash)).fs q
        = fsLookup s q := downloadFile_frame net s _ _ q h
    by_cases hok : (downloadFile net s (assetObjectUrl o.hash) (assetObjectPath o.hash)).ok
    · simp only [hok, if_true]
      cases hc : fsLookup (downloadFile net s (assetObjectUrl o.hash) (assetObjectPath o.hash)).fs
          (assetObjectPath o.hash) with
      | some c =>
        by_cases hsz : (c.length == o.size) = true
        · simp [hc, hsz, hdq]
        · simp only [hc, hsz, Bool.false_eq_true, if_false]
          rw [ih _ q h, fsLookup_erase_ne _ _ q h, hdq]
      | none =>
        simp only [hc]
        rw [ih _ q h, hdq]
    · simp only [hok, Bool.false_eq_true, if_false]
      rw [ih _ q h, hdq]

theorem assetAttempts_congr (net : String → NetResult) (o : AssetObj) :
    ∀ (n : Nat) (s s' : FS),
      fsLookup s (assetObjectPath o.hash) = fsLookup s' (assetObjectPath o.hash) →
      (assetAttempts net o n s).ok = (assetAttempts net o n s').ok := by
  intro n
  induction n with
  | zero => intro s s' _; rfl
  | succ n ih =>
    intro s s' h
    obtain ⟨hok, hreq, hfs⟩ :=
      downloadFile_congr net s s' (assetObjectUrl o.hash) (assetObjectPath o.hash) h
    simp only [assetAttempts]
    rw [← hok, ← hfs]
    by_cases hd : (downloadFile net s (assetObjectUrl o.hash) (assetObjectPath o.hash)).ok
    · simp only [hd, if_true]
      cases hc : fsLookup (downloadFile net s (assetObjectUrl o.hash) (assetObjectPath o.hash)).fs
          (assetObjectPath o.hash) with
      | some c =>
        by_cases hsz : (c.length == o.size) = true
        · simp [hsz]
        · simp only [hsz, Bool.false_eq_true, if_false]
          exact ih _ _ (by rw [fsLookup_erase_self, fsLookup_erase_self])
      | none =>
        simp only []
        exact ih _ _ hfs
    · simp only [hd, Bool.false_eq_true, if_false]
      exact ih _ _ hfs

theorem processAsset_frame (net : String → NetResult) (s : FS) (o : AssetObj) (q : String)
    (h : assetObjectPath o.hash ≠ q) :
    fsLookup (processAsset net s o).fs q = fsLookup s q := by
  unfold processAsset
  cases hc : fsLookup s (assetObjectPath o.hash) with
  | some c =>
    by_cases hsz : (c.length == o.size) = true
    · simp [hsz]
    · simp only [hsz, Bool.false_eq_true, if_false]
      exact assetAttempts_frame net o maxRetries s q h
  | none => exact assetAttempts_frame net o maxRetries s q h

theorem processAsset_congr (net : String → NetResult) (s s' : FS) (o : AssetObj)
    (h : fsLookup s (assetObjectPath o.hash) = fsLookup s' (assetObjectPath o.hash)) :
    (processAsset net s o).ok = (processAsset net s' o).ok := by
  unfold processAsset
  rw [← h]
  cases hc : fsLookup s (assetObjectPath o.hash) with
  | some c =>
    by_cases hsz : (c.length == o.size) = true
    · simp [hsz]
    · simp only [hsz, Bool.false_eq_true, if_false]
      exact assetAttempts_congr net o maxRetries s s' h
  | none => exact assetAttempts_congr net o maxRetries s s' h

/-- Over objects with pairwise distinct cache paths, the loop's failure
and completion counters count exactly the objects that fail (resp.
succeed) when evaluated against the initial cache: each object only ever
touches its own path. -/
theorem processAssets_counts (net : String → NetResult) :
    ∀ (objs : List AssetObj) (s : FS),
      objs.Pairwise (fun a b => assetObjectPath a.hash ≠ assetObjectPath b.hash) →
      (processAssets net s objs).failed =
        objs.countP (fun o => !(processAsset net s o).ok) ∧
      (processAssets net s objs).completed =
        objs.countP (fun o => (processAsset net s o).ok) := by
  intro objs
  induction objs with
  | nil => intro s _; exact ⟨rfl, rfl⟩
  | cons o rest ih =>
    intro s hpw
    rw [List.pairwise_cons] at hpw
    obtain ⟨hsep, hpw'⟩ := hpw
    have hcong : ∀ b ∈ rest,
        (processAsset net (processAsset net s o).fs b).ok = (processAsset net s b).ok := by
      intro b hb
      exact processAsset_congr net _ s b (processAsset_frame net s o _ (hsep b hb))
    obtain ⟨hf, hcpl⟩ := ih (processAsset net s o).fs hpw'
    simp only [processAssets]
    constructor
    · rw [List.countP_cons, hf,
        countP_congr_list rest _ _ (fun b hb => by rw [hcong b hb])]
      by_cases hok : (processAsset net s o).ok = true
      all_goals simp [hok]
      all_goals omega
    · rw [List.countP_cons, hcpl,
        countP_congr_list rest _ _ (fun b hb => by rw [hcong b hb])]
      by_cases hok : (processAsset net s o).ok = true
      all_goals simp [hok]
      all_goals omega

/-! ## The asset-failure threshold -/

/-- C4.  Once the asset batches have run (the index being present and
non-empty, and the objects' cache paths distinct), the synchronization
fails fatally exactly when the number of objects that fail all their
attempts strictly exceeds 10% of the total object count (`10 · failed >
total`, the integer form of `failed > total * 0.1`); at or below the
threshold it succeeds, recording the failures only as a warning. -/
theorem assetSync_threshold (net : String → NetResult) (parse : String → List AssetObj)
    (s : FS) (indexId indexUrl ic : String)
    (hidx : fsLookup s (assetIndexPath indexId) = some ic)
    (hic : 0 < ic.length)
    (hdist : (parse ic).Pairwise (fun a b => assetObjectPath a.hash ≠ assetObjectPath b.hash)) :
    ((downloadAssets net parse s indexId indexUrl).fatal = true ↔
      10 * (parse ic).countP (fun o => !(processAsset net s o).ok) > (parse ic).length) ∧
    (downloadAssets net parse s indexId indexUrl).failed =
      (parse ic).countP (fun o => !(processAsset net s o).ok) ∧
    ((downloadAssets net parse s indexId indexUrl).fatal = false →
      ((downloadAssets net parse s indexId indexUrl).warned = true ↔
        0 < (downloadAssets net parse s indexId indexUrl).failed)) := by
  have h0 : (ic.length == 0) = false := by
    rw [beq_eq_false_iff_ne]
    omega
  have hda : downloadAssets net parse s indexId indexUrl = assetPhase net s (parse ic) 0 := by
    simp only [downloadAssets]
    rw [hidx]
    simp [h0]
  obtain ⟨hf, _⟩ := processAssets_counts net (parse ic) s hdist
  rw [hda]
  unfold assetPhase
  simp only []
  refine ⟨?_, ?_, ?_⟩
  · rw [hf]
    simp
  · exact hf
  · intro hfatal
    simp only [hfatal] at *
    simp [hf]

/-- Witness for C4 at the exactly-5% scenario: twenty objects, nineteen
cached, a dead network; one failure, 10·1 ≤ 20, so the run is not fatal
and ends with a warning. -/
theorem assetSync_threshold_witness :
    (((downloadAssets netAlwaysErr (fun _ => c4Objs) c4Cache "idx" "iu").fatal = true ↔
      10 * c4Objs.countP (fun o => !(processAsset netAlwaysErr c4Cache o).ok) > c4Objs.length) ∧
     (downloadAssets netAlwaysErr (fun _ => c4Objs) c4Cache "idx" "iu").failed =
      c4Objs.countP (fun o => !(processAsset netAlwaysErr c4Cache o).ok) ∧
     ((downloadAssets netAlwaysErr (fun _ => c4Objs) c4Cache "idx" "iu").fatal = false →
      ((downloadAssets netAlwaysErr (fun _ => c4Objs) c4Cache "idx" "iu").warned = true ↔
        0 < (downloadAssets netAlwaysErr (fun _ => c4Objs) c4Cache "idx" "iu").failed))) ∧
    (downloadAssets netAlwaysErr (fun _ => c4Objs) c4Cache "idx" "iu").fatal = false ∧
    (downloadAssets netAlwaysErr (fun _ => c4Objs) c4Cache "idx" "iu").warned = true ∧
    (downloadAssets netAlwaysErr (fun _ => c4Objs) c4Cache "idx" "iu").failed = 1 ∧
    c4Objs.length = 20 :=
  ⟨assetSync_threshold netAlwaysErr (fun _ => c4Objs) c4Cache "idx" "iu" "X"
      (by decide) (by decide) (by decide),
    by decide, by decide, by decide, by decide⟩

/-! ## Cached-run short-circuit lemmas -/

theorem downloadFile_cached_eq (net : String → NetResult) (s : FS) (url fp c : String)
    (hc : fsLookup s fp = some c) (hlen : 0 < c.length) :
    downloadFile net s url fp = ⟨s, true, 0⟩ := by
  unfold downloadFile
  rw [hc]
  simp [hlen]

theorem entryNonempty_spec (s : FS) (fp : String) (h : entryNonempty s fp = true) :
    ∃ c, fsLookup s fp = some c ∧ 0 < c.length := by
  unfold entryNonempty at h
  cases hc : fsLookup s fp with
  | some c =>
    rw [hc] at h
    exact ⟨c, rfl, by simpa using h⟩
  | none =>
    rw [hc] at h
    simp at h

theorem downloadFile_entryCached (net : String → NetResult) (s : FS) (url fp : String)
    (h : entryNonempty s fp = true) :
    downloadFile net s url fp = ⟨s, true, 0⟩ := by
  obtain ⟨c, hc, hlen⟩ := entryNonempty_spec s fp h
  exact downloadFile_cached_eq net s url fp c hc hlen

theorem tryRepos_cached (net : String → NetResult) (libPath fp : String) (s : FS)
    (h : entryNonempty s fp = true) (repo : String) (rest : List String) :
    tryRepos net libPath fp s (repo :: rest) = ⟨s, true, 0⟩ := by
  simp only [tryRepos]
  rw [downloadFile_entryCached net s (repo ++ "/" ++ libPath) fp h]
  simp

theorem downloadLibraryMain_cached (net : String → NetResult) (s : FS) (library : Library)
    (h : (match libFilePathOf library with
          | some fp => entryNonempty s fp
          | none => true) = true) :
    downloadLibraryMain net s library = (s, 0) := by
  unfold downloadLibraryMain
  cases hda : library.downloads.bind Downloads.artifact with
  | some a =>
    have hfp : libFilePathOf library = some (LIBRARIES_DIR ++ "/" ++ parseLibraryPath library) := by
      unfold libFilePathOf
      rw [hda]
      simp
    rw [hfp] at h
    by_cases hurl : (a.url != "") = true
    · simp only [hurl, if_true]
      rw [downloadFile_entryCached net s a.url _ h]
      simp
    · simp only [hurl, Bool.false_eq_true, if_false]
      by_cases hlp : (parseLibraryPath library != "") = true
      · simp only [hlp, if_true, MAVEN_REPOS]
        rw [tryRepos_cached net (parseLibraryPath library) _ s h]
        simp
      · simp [hlp]
  | none =>
    by_cases hname : (library.name != "") = true
    · have hfp : libFilePathOf library =
          some (LIBRARIES_DIR ++ "/" ++ parseLibraryPath library) := by
        unfold libFilePathOf
        rw [hda]
        simp [hname]
      rw [hfp] at h
      simp only [hname, if_true]
      by_cases hlp : (parseLibraryPath library != "") = true
      · simp only [hlp, if_true, MAVEN_REPOS]
        rw [tryRepos_cached net (parseLibraryPath library) _ s h]
      · simp [hlp]
    · simp [hname]

theorem downloadLibraryEntry_cached (net : String → NetResult) (platform arch : String)
    (s : FS) (library : Library) (h : libraryCached platform arch s library = true) :
    downloadLibraryEntry net platform arch s library = (s, 0) := by
  unfold libraryCached at h
  rw [Bool.and_eq_true] at h
  obtain ⟨h1, h2⟩ := h
  simp only [downloadLibraryEntry]
  rw [downloadLibraryMain_cached net s library h1]
  cases hna : nativeArtifactFor platform arch library with
  | none => simp
  | some a =>
    rw [hna] at h2
    simp at h2
    simp [hna, downloadFile_entryCached net s a.url (LIBRARIES_DIR ++ "/" ++ a.path) h2]

theorem downloadLibrariesGo_cached (net : String → NetResult) (platform arch : String) :
    ∀ (libs : List Library) (s : FS),
      (∀ l ∈ libs, libraryCached platform arch s l = true) →
      downloadLibrariesGo net platform arch s libs = (s, 0) := by
  intro libs
  induction libs with
  | nil => intro s _; rfl
  | cons l rest ih =>
    intro s h
    simp only [downloadLibrariesGo]
    rw [downloadLibraryEntry_cached net platform arch s l (h l (by simp))]
    rw [ih s (fun x hx => h x (by simp [hx]))]
    simp

theorem processAssets_cached (net : String → NetResult) :
    ∀ (objs : List AssetObj) (s : FS),
      (∀ o ∈ objs, assetCached s o = true) →
      processAssets net s objs = ⟨s, objs.length, 0, 0⟩ := by
  intro objs
  induction objs with
  | nil => intro s _; rfl
  | cons o rest ih =>
    intro s h
    have ho := h o (by simp)
    unfold assetCached at ho
    have hpa : processAsset net s o = ⟨s, true, 0⟩ := by
      unfold processAsset
      cases hc : fsLookup s (assetObjectPath o.hash) with
      | some c =>
        rw [hc] at ho
        simp at ho
        simp [hc, ho]
      | none =>
        rw [hc] at ho
        simp at ho
    simp only [processAssets]
    rw [hpa, ih s (fun x hx => h x (by simp [hx]))]
    simp [Nat.add_comm]

/-- C5 (amended).  Re-running the library fetch and the asset fetch
against a fully populated cache — every library artifact and
platform-native file on disk and NON-EMPTY, the asset index present and
non-empty, every asset object on disk with exactly its declared size —
issues zero network requests and leaves the cache untouched: the
existence checks short-circuit every entry.  (The non-emptiness proviso
is forced: the library-side guard checks only existence and size > 0,
so a zero-size artifact cached at its declared size 0 is re-fetched,
refuting the unrestricted claim.) -/
theorem cachedRun_zeroRequests (net : String → NetResult) (parse : String → List AssetObj)
    (platform arch : String) (s : FS) (libs : List Library) (indexId indexUrl ic : String)
    (hlib : ∀ l ∈ libs, shouldUseLibrary platform l = true →
      libraryCached platform arch s l = true)
    (hidx : fsLookup s (assetIndexPath indexId) = some ic)
    (hic : 0 < ic.length)
    (hobj : ∀ o ∈ parse ic, assetCached s o = true) :
    downloadLibraries net platform arch s libs = (s, 0) ∧
    downloadAssets net parse s indexId indexUrl =
      ⟨s, (parse ic).length, (parse ic).length, 0, 0, false, false⟩ := by
  constructor
  · unfold downloadLibraries
    apply downloadLibrariesGo_cached
    intro l hl
    rw [List.mem_filter] at hl
    exact hlib l hl.1 hl.2
  · have h0 : (ic.length == 0) = false := by
      rw [beq_eq_false_iff_ne]
      omega
    have hda : downloadAssets net parse s indexId indexUrl = assetPhase net s (parse ic) 0 := by
      simp only [downloadAssets]
      rw [hidx]
      simp [h0]
    rw [hda]
    unfold assetPhase
    rw [processAssets_cached net (parse ic) s hobj]
    simp

/-- Witness for C5 (amended) on a one-library, one-asset populated
cache. -/
theorem cachedRun_zeroRequests_witness :
    downloadLibraries netAlwaysErr "linux" "x64" c5Cache [cachedLib] = (c5Cache, 0) ∧
    downloadAssets netAlwaysErr (fun _ => c5Objs) c5Cache "idx" "iu" =
      ⟨c5Cache, 1, 1, 0, 0, false, false⟩ :=
  cachedRun_zeroRequests netAlwaysErr (fun _ => c5Objs) "linux" "x64" c5Cache [cachedLib]
    "idx" "iu" "X" (by decide) (by decide) (by decide) (by decide)

/-- C5 counterexample.  A cache can be fully populated in the claim's
sense — the library artifact on disk with exactly its declared byte size
(zero) — and the library fetch still issues a network request: the guard
requires size > 0, not size equality. -/
theorem zeroSizeArtifact_refetched :
    fsLookup zeroSizeCache (LIBRARIES_DIR ++ "/" ++ parseLibraryPath zeroSizeLib) = some "" ∧
    (zeroSizeLib.downloads.bind Downloads.artifact).map Artifact.size = some 0 ∧
    String.length "" = 0 ∧
    (downloadLibraries netAlwaysOk "linux" "x64" zeroSizeCache [zeroSizeLib]).2 = 1 := by
  exact ⟨by decide, by decide, rfl, by decide⟩

end Voxel
